import Mathlib

/-!
Shallow embedding of the lyric-snippet application (`src/app/page.tsx` and
`src/app/api/lyrics/route.ts`).

Line indices are JavaScript numbers holding small integers; they are
modelled as `Int`.  A selection is the React state `selectedLineIndices`,
a JavaScript array, modelled as a `List Int` in insertion order.
-/

namespace LyricFinder

/-- `const MAX_SELECTED_LINES = 4;` -/
def MAX_SELECTED_LINES : Nat := 4

/-- JavaScript `array.sort((a, b) => a - b)`: the array sorted ascending. -/
def jsSortAsc (l : List Int) : List Int := l.insertionSort (· ≤ ·)

/-- `sorted[0]` after the ascending sort (the source destructures
`const [min, max] = [sorted[0], sorted.at(-1)!]`). -/
def selMin (l : List Int) : Int := (jsSortAsc l).head!

/-- `sorted.at(-1)!` after the ascending sort. -/
def selMax (l : List Int) : Int := (jsSortAsc l).getLast!

/-- The updater passed to `setSelectedLineIndices` in `handleLineSelect`:
```
if (prev.length === 0) return [index];
if (prev.includes(index)) return [];
const sorted = [...prev].sort((a, b) => a - b);
const [min, max] = [sorted[0], sorted.at(-1)!];
if ((index === min - 1 || index === max + 1) && prev.length < MAX_SELECTED_LINES) {
  return [...prev, index];
}
if (prev.length >= MAX_SELECTED_LINES) { alert(...); return prev; }
return [index];
```
-/
def handleLineSelect (prev : List Int) (index : Int) : List Int :=
  if prev.length = 0 then [index]
  else if index ∈ prev then []
  else if (index = selMin prev - 1 ∨ index = selMax prev + 1)
          ∧ prev.length < MAX_SELECTED_LINES then
    prev ++ [index]
  else if MAX_SELECTED_LINES ≤ prev.length then
    prev
  else
    [index]

/-- Folding a sequence of clicks from the initial empty selection. -/
def applyClicks (clicks : List Int) : List Int :=
  clicks.foldl handleLineSelect []

/-- The members of `l` are exactly the integer range starting at `a` of
length `l.length` (a contiguous ascending run). -/
def IsRunFrom (a : Int) (l : List Int) : Prop :=
  ∀ x : Int, x ∈ l ↔ a ≤ x ∧ x < a + l.length

/-- The selection invariant: empty, or (a singleton or longer) contiguous
ascending run of length at most `MAX_SELECTED_LINES`. -/
def SelInvariant (l : List Int) : Prop :=
  l = [] ∨ (l.length ≤ MAX_SELECTED_LINES ∧ ∃ a : Int, IsRunFrom a l)

/-! ### Helper lemmas about the ascending sort and its endpoints -/

lemma jsSortAsc_perm (l : List Int) : List.Perm (jsSortAsc l) l :=
  List.perm_insertionSort _ l

lemma jsSortAsc_sorted (l : List Int) : (jsSortAsc l).Sorted (· ≤ ·) :=
  List.sorted_insertionSort _ l

lemma jsSortAsc_length (l : List Int) : (jsSortAsc l).length = l.length :=
  (jsSortAsc_perm l).length_eq

lemma jsSortAsc_mem {l : List Int} {x : Int} : x ∈ jsSortAsc l ↔ x ∈ l :=
  (jsSortAsc_perm l).mem_iff

lemma jsSortAsc_ne_nil {l : List Int} (h : l ≠ []) : jsSortAsc l ≠ [] := by
  intro hc
  apply h
  have := jsSortAsc_length l
  rw [hc] at this
  exact List.length_eq_zero.mp this.symm

lemma head!_mem_of_ne_nil {s : List Int} (h : s ≠ []) : s.head! ∈ s := by
  cases s with
  | nil => exact absurd rfl h
  | cons a t => simp

lemma sorted_head!_le {s : List Int} (hs : s.Sorted (· ≤ ·)) :
    ∀ x ∈ s, s.head! ≤ x := by
  cases s with
  | nil => intro x hx; simp at hx
  | cons a t =>
    intro x hx
    rcases List.mem_cons.mp hx with h | h
    · subst h; simp
    · simpa using List.rel_of_sorted_cons hs x h

lemma getLast!_cons_cons (a b : Int) (t : List Int) :
    (a :: b :: t).getLast! = (b :: t).getLast! := by
  rw [List.getLast!_cons, List.getLast!_cons, List.getLastD_cons]

lemma getLast!_singleton (a : Int) : ([a] : List Int).getLast! = a := by
  simp [List.getLast!_cons]

lemma getLast!_mem_of_ne_nil : ∀ {s : List Int}, s ≠ [] → s.getLast! ∈ s := by
  intro s
  induction s with
  | nil => intro h; exact absurd rfl h
  | cons a t ih =>
    intro _
    cases t with
    | nil => simp [getLast!_singleton]
    | cons b u =>
      rw [getLast!_cons_cons]
      exact List.mem_cons_of_mem a (ih (by simp))

lemma sorted_le_getLast! : ∀ {s : List Int}, s.Sorted (· ≤ ·) →
    ∀ x ∈ s, x ≤ s.getLast! := by
  intro s
  induction s with
  | nil => intro _ x hx; simp at hx
  | cons a t ih =>
    intro hs x hx
    cases t with
    | nil =>
      rw [getLast!_singleton]
      have hxa : x = a := by simpa using hx
      simp [hxa]
    | cons b u =>
      rw [getLast!_cons_cons]
      rcases List.mem_cons.mp hx with h | h
      · subst h
        calc x ≤ b := List.rel_of_sorted_cons hs b (by simp)
          _ ≤ (b :: u).getLast! :=
            ih (List.Sorted.of_cons hs) b (by simp)
      · exact ih (List.Sorted.of_cons hs) x h

lemma selMin_mem {l : List Int} (h : l ≠ []) : selMin l ∈ l :=
  jsSortAsc_mem.mp (head!_mem_of_ne_nil (jsSortAsc_ne_nil h))

lemma selMin_le {l : List Int} (x : Int) (hx : x ∈ l) : selMin l ≤ x :=
  sorted_head!_le (jsSortAsc_sorted l) x (jsSortAsc_mem.mpr hx)

lemma selMax_mem {l : List Int} (h : l ≠ []) : selMax l ∈ l :=
  jsSortAsc_mem.mp (getLast!_mem_of_ne_nil (jsSortAsc_ne_nil h))

lemma le_selMax {l : List Int} (x : Int) (hx : x ∈ l) : x ≤ selMax l :=
  sorted_le_getLast! (jsSortAsc_sorted l) x (jsSortAsc_mem.mpr hx)

lemma selMin_eq_of_run {a : Int} {l : List Int} (hr : IsRunFrom a l)
    (h : l ≠ []) : selMin l = a := by
  have hlen : 0 < l.length := List.length_pos.mpr h
  have ha : a ∈ l := (hr a).mpr (by constructor <;> omega)
  have h1 : selMin l ≤ a := selMin_le a ha
  have h2 := (hr (selMin l)).mp (selMin_mem h)
  omega

lemma selMax_eq_of_run {a : Int} {l : List Int} (hr : IsRunFrom a l)
    (h : l ≠ []) : selMax l = a + l.length - 1 := by
  have hlen : 0 < l.length := List.length_pos.mpr h
  have ha : a + l.length - 1 ∈ l := (hr _).mpr (by constructor <;> omega)
  have h1 : a + l.length - 1 ≤ selMax l := le_selMax _ ha
  have h2 := (hr (selMax l)).mp (selMax_mem h)
  omega

/-- One click preserves the selection invariant. -/
lemma handleLineSelect_preserves {prev : List Int} (index : Int)
    (hinv : SelInvariant prev) : SelInvariant (handleLineSelect prev index) := by
  unfold handleLineSelect
  split_ifs with h0 hmem hadj hfull
  · -- empty selection: start a singleton
    right
    refine ⟨by simp [MAX_SELECTED_LINES], index, fun x => ?_⟩
    simp only [List.mem_singleton, List.length_singleton]
    omega
  · -- member click: clear
    left; rfl
  · -- adjacent click below the limit: extend
    have hne : prev ≠ [] := fun hc => h0 (by simp [hc])
    rcases hinv with hc | ⟨_, a, hrun⟩
    · exact absurd hc hne
    have hlen : 0 < prev.length := List.length_pos.mpr hne
    have hmin := selMin_eq_of_run hrun hne
    have hmax := selMax_eq_of_run hrun hne
    right
    constructor
    · simp only [List.length_append, List.length_singleton]
      omega
    rcases hadj.1 with hidx | hidx
    · rw [hmin] at hidx
      refine ⟨a - 1, fun x => ?_⟩
      rw [List.mem_append, List.mem_singleton, hrun x]
      simp only [List.length_append, List.length_singleton]
      omega
    · rw [hmax] at hidx
      refine ⟨a, fun x => ?_⟩
      rw [List.mem_append, List.mem_singleton, hrun x]
      simp only [List.length_append, List.length_singleton]
      omega
  · -- at the limit: unchanged
    exact hinv
  · -- non-adjacent below the limit: restart as a singleton
    right
    refine ⟨by simp [MAX_SELECTED_LINES], index, fun x => ?_⟩
    simp only [List.mem_singleton, List.length_singleton]
    omega

/-- C2: clicking any already-selected line clears the whole selection,
whatever the size of the selection. -/
theorem handleLineSelect_member_clears (prev : List Int) (index : Int)
    (hne : prev ≠ []) (hmem : index ∈ prev) :
    handleLineSelect prev index = [] := by
  unfold handleLineSelect
  rw [if_neg (fun hc => hne (List.length_eq_zero.mp hc)), if_pos hmem]

/-- Witness for C2 at a selection already at the 4-line limit. -/
theorem handleLineSelect_member_clears_witness :
    handleLineSelect [0, 1, 2, 3] 2 = [] :=
  handleLineSelect_member_clears [0, 1, 2, 3] 2 (by decide) (by decide)

/-- C1: after any sequence of clicks applied by `handleLineSelect` starting
from the empty selection, the selection set is empty, a singleton, or a
contiguous ascending run of length at most `MAX_SELECTED_LINES` (= 4). -/
theorem applyClicks_invariant (clicks : List Int) :
    SelInvariant (applyClicks clicks) := by
  have main : ∀ (cs : List Int) (l : List Int), SelInvariant l →
      SelInvariant (cs.foldl handleLineSelect l) := by
    intro cs
    induction cs with
    | nil => intro l h; exact h
    | cons c cs ih =>
      intro l h
      exact ih _ (handleLineSelect_preserves c h)
  exact main clicks [] (Or.inl rfl)

/-- C3: clicking an index adjacent to the boundary of a non-empty contiguous
selection extends it by exactly that index when strictly below the 4-line
limit, and is rejected (selection unchanged) when at the limit. -/
theorem handleLineSelect_adjacent (prev : List Int) (index a : Int)
    (hrun : IsRunFrom a prev) (hne : prev ≠ [])
    (hadj : index = selMin prev - 1 ∨ index = selMax prev + 1) :
    (prev.length < MAX_SELECTED_LINES →
      handleLineSelect prev index = prev ++ [index]) ∧
    (prev.length = MAX_SELECTED_LINES →
      handleLineSelect prev index = prev) := by
  have hlen : 0 < prev.length := List.length_pos.mpr hne
  have hmin := selMin_eq_of_run hrun hne
  have hmax := selMax_eq_of_run hrun hne
  have hadj' := hadj
  rw [hmin, hmax] at hadj'
  have hnotmem : index ∉ prev := by
    intro hc
    have := (hrun index).mp hc
    rcases hadj' with h | h <;> omega
  constructor
  · intro hlt
    unfold handleLineSelect
    rw [if_neg (by omega), if_neg hnotmem, if_pos ⟨hadj, hlt⟩]
  · intro heq
    unfold handleLineSelect
    rw [if_neg (by omega), if_neg hnotmem,
      if_neg (fun hc => by omega), if_pos (by omega)]

/-- Witness for C3: selection `[1, 2]` (run from 1), clicking 0 = min - 1
below the limit extends the array by that index. -/
theorem handleLineSelect_adjacent_witness :
    handleLineSelect [1, 2] 0 = [1, 2, 0] := by
  have h := handleLineSelect_adjacent [1, 2] 0 1
    (by
      intro x
      simp only [List.mem_cons, List.mem_singleton, List.not_mem_nil,
        or_false, List.length_cons, List.length_singleton, List.length_nil]
      omega)
    (by decide) (by decide)
  simpa using h.1 (by decide)

/-- C4: clicking a non-member index that is not adjacent to the selection
boundary, while strictly below the 4-line limit, restarts the selection as
the singleton of that index. -/
theorem handleLineSelect_restart (prev : List Int) (index : Int)
    (hne : prev ≠ []) (hlt : prev.length < MAX_SELECTED_LINES)
    (hmem : index ∉ prev)
    (h1 : index ≠ selMin prev - 1) (h2 : index ≠ selMax prev + 1) :
    handleLineSelect prev index = [index] := by
  have hlen : 0 < prev.length := List.length_pos.mpr hne
  unfold handleLineSelect
  rw [if_neg (by omega), if_neg hmem,
    if_neg (fun hc => hc.1.elim h1 h2), if_neg (by omega)]

/-- Witness for C4: non-adjacent click 5 on selection `[1, 2]` restarts as
the singleton `[5]`. -/
theorem handleLineSelect_restart_witness :
    handleLineSelect [1, 2] 5 = [5] :=
  handleLineSelect_restart [1, 2] 5 (by decide) (by decide) (by decide)
    (by decide) (by decide)

/-! ### Snippet builder (`getSelectedLineContent`) -/

/-- `const lyricsLines = lyrics.split("\n");` -/
def splitLines (lyrics : String) : List String := lyrics.splitOn "\n"

/-- JavaScript array indexing `lines[i]` where `i` may be negative or out of
range: `undefined` is modelled as `none`. -/
def jsIndex (lines : List String) (i : Int) : Option String :=
  if 0 ≤ i then lines.get? i.toNat else none

/-- JavaScript `v || ""`: the empty string when `v` is `undefined` or falsy
(the empty string), otherwise `v` itself. -/
def jsOrEmpty (v : Option String) : String :=
  match v with
  | none => ""
  | some s => if s = "" then "" else s

/-- `getSelectedLineContent`:
```
if (!lyrics || selectedLineIndices.length === 0) return [];
return [...selectedLineIndices].sort((a, b) => a - b).map((i) => lyricsLines[i] || "");
```
-/
def getSelectedLineContent (lyrics : String) (sel : List Int) : List String :=
  if lyrics = "" ∨ sel.length = 0 then []
  else (jsSortAsc sel).map (fun i => jsOrEmpty (jsIndex (splitLines lyrics) i))

/-- C5: the snippet builder reads the selection back in ascending index
order (its output is the image of any ascending arrangement of the
selection), and two selections with the same membership, whatever insertion
order produced them, yield the same output line list. -/
theorem getSelectedLineContent_sorted_order (lyrics : String)
    (sel₁ sel₂ t : List Int) (h1 : sel₁.Nodup) (h2 : sel₂.Nodup)
    (hmem : ∀ x : Int, x ∈ sel₁ ↔ x ∈ sel₂)
    (hts : t.Sorted (· ≤ ·)) (htp : List.Perm t sel₁)
    (hl : lyrics ≠ "") (hne : sel₁ ≠ []) :
    getSelectedLineContent lyrics sel₁ =
      t.map (fun i => jsOrEmpty (jsIndex (splitLines lyrics) i)) ∧
    getSelectedLineContent lyrics sel₁ = getSelectedLineContent lyrics sel₂ := by
  have hsort1 : jsSortAsc sel₁ = t :=
    List.eq_of_perm_of_sorted ((jsSortAsc_perm sel₁).trans htp.symm)
      (jsSortAsc_sorted _) hts
  have hne₂ : sel₂ ≠ [] := by
    obtain ⟨x, hx⟩ := List.exists_mem_of_ne_nil sel₁ hne
    exact List.ne_nil_of_mem ((hmem x).mp hx)
  have hperm : List.Perm sel₁ sel₂ :=
    (List.perm_ext_iff_of_nodup h1 h2).mpr hmem
  have hsort12 : jsSortAsc sel₁ = jsSortAsc sel₂ :=
    List.eq_of_perm_of_sorted
      (((jsSortAsc_perm sel₁).trans hperm).trans (jsSortAsc_perm sel₂).symm)
      (jsSortAsc_sorted _) (jsSortAsc_sorted _)
  constructor
  · rw [getSelectedLineContent, if_neg (by simp [hl, List.length_eq_zero, hne]),
      hsort1]
  · rw [getSelectedLineContent, getSelectedLineContent,
      if_neg (by simp [hl, List.length_eq_zero, hne]),
      if_neg (by simp [hl, List.length_eq_zero, hne₂]), hsort12]

/-- Witness for C5: lyrics `"a\nb\nc"`, the selections `[2, 0]` and
`[0, 2]` (same membership, different click order) both render as the
ascending arrangement `[0, 2]` does. -/
theorem getSelectedLineContent_sorted_order_witness :
    getSelectedLineContent "a\nb\nc" [2, 0] =
      ([0, 2] : List Int).map
        (fun i => jsOrEmpty (jsIndex (splitLines "a\nb\nc") i)) ∧
    getSelectedLineContent "a\nb\nc" [2, 0] =
      getSelectedLineContent "a\nb\nc" [0, 2] :=
  getSelectedLineContent_sorted_order "a\nb\nc" [2, 0] [0, 2] [0, 2]
    (by decide) (by decide)
    (fun x => by
      simp only [List.mem_cons, List.mem_singleton, List.not_mem_nil,
        or_false]
      tauto)
    (by decide) (by decide) (by decide) (by decide)

/-- C10: with non-empty lyrics the snippet builder is total: it returns
exactly one entry per selected index, and any index with no corresponding
line (negative, past the end of the split line list, or an empty line)
is mapped to the empty string rather than failing. -/
theorem getSelectedLineContent_total (lyrics : String) (sel : List Int)
    (hl : lyrics ≠ "") :
    (getSelectedLineContent lyrics sel).length = sel.length ∧
    ∀ i : Int,
      (i < 0 ∨ (splitLines lyrics).length ≤ i.toNat ∨
        jsIndex (splitLines lyrics) i = some "") →
      jsOrEmpty (jsIndex (splitLines lyrics) i) = "" := by
  constructor
  · by_cases hsel : sel.length = 0
    · rw [getSelectedLineContent, if_pos (Or.inr hsel), hsel]
      rfl
    · rw [getSelectedLineContent, if_neg (by simp [hl, hsel]),
        List.length_map, jsSortAsc_length]
  · intro i h
    rcases h with h | h | h
    · rw [jsIndex, if_neg (by omega)]
      rfl
    · by_cases h0 : 0 ≤ i
      · rw [jsIndex, if_pos h0, List.get?_eq_none.mpr h]
        rfl
      · rw [jsIndex, if_neg h0]
        rfl
    · rw [h]
      rfl

/-- Witness for C10: lyrics `"a\nb"` with selection `[5, -1, 0]` — one
entry per index, and the out-of-range index 5 maps to the empty string. -/
theorem getSelectedLineContent_total_witness :
    (getSelectedLineContent "a\nb" [5, -1, 0]).length = 3 ∧
    jsOrEmpty (jsIndex (splitLines "a\nb") (-1)) = "" := by
  have h := getSelectedLineContent_total "a\nb" [5, -1, 0] (by decide)
  exact ⟨h.1, h.2 (-1) (Or.inl (by decide))⟩

/-! ### Export-flow guard (`openPreviewModal`) -/

/-- `sorted.every((v, i) => i === 0 || v === sorted[i - 1] + 1)`. -/
def jsEveryConsec (sorted : List Int) : Bool :=
  (List.range sorted.length).all fun i =>
    (i == 0) || (sorted.getD i 0 == sorted.getD (i - 1) 0 + 1)

/-- `openPreviewModal` as a guard: `true` exactly when control reaches
`setIsModalOpen(true)`; the early `alert`-and-return paths yield `false`:
```
if (selectedLineIndices.length === 0) { alert(...); return; }
const sorted = [...selectedLineIndices].sort((a, b) => a - b);
if (sorted.length > 1 && !sorted.every((v, i) => i === 0 || v === sorted[i - 1] + 1)) {
  alert(...); return;
}
... setIsModalOpen(true);
```
-/
def openPreviewModalOpens (sel : List Int) : Bool :=
  if sel.length = 0 then false
  else if 1 < (jsSortAsc sel).length ∧ jsEveryConsec (jsSortAsc sel) = false
  then false
  else true

/-- The sorted selection ascends in steps of exactly one (contiguity of the
sorted members). -/
def ContiguousSel (sel : List Int) : Prop :=
  ∀ i : Nat, i + 1 < (jsSortAsc sel).length →
    (jsSortAsc sel).getD (i + 1) 0 = (jsSortAsc sel).getD i 0 + 1

lemma jsEveryConsec_iff (s : List Int) :
    jsEveryConsec s = true ↔
      ∀ i : Nat, i + 1 < s.length → s.getD (i + 1) 0 = s.getD i 0 + 1 := by
  unfold jsEveryConsec
  rw [List.all_eq_true]
  constructor
  · intro h i hi
    have hm := h (i + 1) (List.mem_range.mpr (by omega))
    simp only [Bool.or_eq_true, beq_iff_eq, Nat.add_sub_cancel] at hm
    rcases hm with h' | h'
    · omega
    · exact h'
  · intro h i hi
    rw [List.mem_range] at hi
    simp only [Bool.or_eq_true, beq_iff_eq]
    by_cases h0 : i = 0
    · exact Or.inl h0
    · right
      obtain ⟨j, rfl⟩ : ∃ j, i = j + 1 := ⟨i - 1, by omega⟩
      rw [Nat.add_sub_cancel]
      exact h j (by omega)

/-- C6: the export entry point opens the configuration modal exactly when
the selection is non-empty and its sorted members are consecutive; an empty
or non-contiguous selection is rejected before any capture is attempted. -/
theorem openPreviewModal_opens_iff (sel : List Int) :
    openPreviewModalOpens sel = true ↔ sel ≠ [] ∧ ContiguousSel sel := by
  unfold openPreviewModalOpens
  by_cases h0 : sel.length = 0
  · rw [if_pos h0]
    simp [List.length_eq_zero.mp h0]
  · rw [if_neg h0]
    have hne : sel ≠ [] := fun hc => h0 (by simp [hc])
    by_cases hc : 1 < (jsSortAsc sel).length ∧ jsEveryConsec (jsSortAsc sel) = false
    · rw [if_pos hc]
      simp only [Bool.false_eq_true, false_iff, not_and]
      intro _ hcont
      have ht : jsEveryConsec (jsSortAsc sel) = true :=
        (jsEveryConsec_iff (jsSortAsc sel)).mpr hcont
      rw [hc.2] at ht
      exact Bool.false_ne_true ht
    · rw [if_neg hc]
      simp only [true_iff]
      refine ⟨hne, fun i hi => ?_⟩
      rcases not_and_or.mp hc with h1 | h2
      · omega
      · have ht : jsEveryConsec (jsSortAsc sel) = true := by
          rcases Bool.eq_false_or_eq_true (jsEveryConsec (jsSortAsc sel))
            with ht | hf
          · exact ht
          · exact absurd hf h2
        exact (jsEveryConsec_iff _).mp ht i hi

/-! ### Export file name (`exportPngFromModal`) -/

/-- ASCII alphanumeric: the characters matched by the pattern
`[a-z0-9]` with the case-insensitive flag. -/
def isAsciiAlphanum (c : Char) : Bool :=
  ('a' ≤ c && c ≤ 'z') || ('A' ≤ c && c ≤ 'Z') || ('0' ≤ c && c ≤ '9')

/-- `title.replace(/[^a-z0-9]/gi, "_")`: every character that is not
ASCII alphanumeric is replaced by an underscore. -/
def jsReplaceNonAlnum (s : String) : String :=
  String.mk (s.data.map fun c => if isAsciiAlphanum c then c else '_')

/-- `.toLowerCase()`; on the ASCII-only strings produced by
`jsReplaceNonAlnum` the JavaScript and `Char.toLower` semantics agree. -/
def jsToLower (s : String) : String :=
  String.mk (s.data.map Char.toLower)

/-- The download file name assembled in `exportPngFromModal`:
`` `${title.replace(/[^a-z0-9]/gi, "_").toLowerCase()}_selection.png` ``. -/
def exportFileName (title : String) : String :=
  jsToLower (jsReplaceNonAlnum title) ++ "_selection.png"

/-- Modelled from the spec: "taking the track title, stripping every
character that is not alphanumeric, lower-casing the result, and appending
a fixed suffix (`_selection`) plus the image extension" — non-alphanumerics
removed rather than replaced. -/
def specStripFileName (title : String) : String :=
  jsToLower (String.mk (title.data.filter isAsciiAlphanum)) ++ "_selection.png"

/-- Counterexample for C7: on the title `"a b"` the code produces
`"a_b_selection.png"` (space replaced by an underscore), not the
`"ab_selection.png"` that stripping non-alphanumerics would give. -/
theorem exportFileName_counterexample :
    exportFileName "a b" = "a_b_selection.png" ∧
    specStripFileName "a b" = "ab_selection.png" ∧
    exportFileName "a b" ≠ specStripFileName "a b" := by
  refine ⟨rfl, rfl, ?_⟩
  decide

/-- C7 (amended): the exported file name equals the title with every ASCII
alphanumeric character lower-cased and every other character replaced by an
underscore, followed by the fixed `_selection.png` suffix. -/
theorem exportFileName_eq (title : String) :
    exportFileName title =
      String.mk (title.data.map fun c =>
        if isAsciiAlphanum c then c.toLower else '_') ++ "_selection.png" := by
  show String.mk ((title.data.map fun c =>
      if isAsciiAlphanum c then c else '_').map Char.toLower)
      ++ "_selection.png" = _
  rw [List.map_map]
  have hfun : (Char.toLower ∘ fun c => if isAsciiAlphanum c then c else '_')
      = fun c => if isAsciiAlphanum c then c.toLower else '_' := by
    funext c
    simp only [Function.comp_apply]
    cases hb : isAsciiAlphanum c
    · simp only [hb, Bool.false_eq_true, if_false]
      decide
    · simp only [hb, if_true]
  rw [hfun]

/-! ### Backend lyrics route (`src/app/api/lyrics/route.ts`, LRCLIB branch) -/

/-- A JSON response from the route: HTTP status plus the body fields the
route may set.  `lyrics = some none` models the field present with value
`null`; an outer `none` models the field absent.  Field order:
status, lyrics, source, isSynced, message, error. -/
structure RouteResponse where
  status : Nat
  lyrics : Option (Option String)
  source : Option String
  isSynced : Option Bool
  message : Option String
  error : Option String
  deriving DecidableEq

/-- Outcome of `axios.get(lrclibUrl)`: axios resolves with the status and
parsed body for accepted statuses and otherwise rejects with an axios error
carrying `response.status` when a response exists; any non-axios failure is
`otherRejected`.  `plainLyrics` is `lyricsData.plainLyrics`; absent and
empty model the falsy cases of `lyricsData.plainLyrics || null`. -/
inductive AxiosOutcome where
  | resolved (status : Nat) (plainLyrics : Option String)
  | axiosRejected (status : Option Nat)
  | otherRejected
  deriving DecidableEq

/-- `NextResponse.json({ lyrics: null, source: 'lrclib', message: 'No lyrics found for this track.' })`
(default HTTP status 200). -/
def noLyricsResponse : RouteResponse :=
  ⟨200, some none, some "lrclib", none,
    some "No lyrics found for this track.", none⟩

/-- `NextResponse.json({ lyrics: null, source: 'lrclib', message: 'Lyrics found but content is empty.' })`. -/
def emptyLyricsResponse : RouteResponse :=
  ⟨200, some none, some "lrclib", none,
    some "Lyrics found but content is empty.", none⟩

/-- The LRCLIB branch of the route's `GET` handler: the `try`/`catch`
around the axios call, as a function of the axios outcome. -/
def lyricsRouteFetch : AxiosOutcome → RouteResponse
  | .resolved st pl =>
    if st = 404 then noLyricsResponse
    else if st ≠ 200 then
      ⟨502, none, none, none, none,
        some ("LRCLIB request failed with status " ++ toString st)⟩
    else
      match pl with
      | some l =>
        if l = "" then emptyLyricsResponse
        else ⟨200, some (some l), some "lrclib", some false, none, none⟩
      | none => emptyLyricsResponse
  | .axiosRejected stOpt =>
    if stOpt.getD 500 = 404 then noLyricsResponse
    else
      ⟨502, none, none, none, none,
        some ("Failed to fetch lyrics from LRCLIB (Status: "
          ++ toString (stOpt.getD 500) ++ ")")⟩
  | .otherRejected =>
    ⟨500, none, none, none, none,
      some "An unexpected error occurred while fetching lyrics from LRCLIB."⟩

/-- C8: a provider 404 — whether it surfaces as a resolved response or as
an axios rejection carrying status 404 — yields a success response: HTTP
status 200, `lyrics` equal to `null`, a human-readable message, and no
`error` field.  A provider status that is neither 200 nor 404 yields an
error-shaped response instead. -/
theorem lyricsRoute_provider404 (st : Nat) (pl : Option String) :
    (st = 404 →
      lyricsRouteFetch (.resolved st pl) = noLyricsResponse ∧
      lyricsRouteFetch (.axiosRejected (some st)) = noLyricsResponse ∧
      noLyricsResponse.status = 200 ∧
      noLyricsResponse.lyrics = some none ∧
      noLyricsResponse.message.isSome = true ∧
      noLyricsResponse.error = none) ∧
    (st ≠ 404 → st ≠ 200 →
      (lyricsRouteFetch (.resolved st pl)).error.isSome = true ∧
      (lyricsRouteFetch (.resolved st pl)).status = 502 ∧
      (lyricsRouteFetch (.axiosRejected (some st))).error.isSome = true ∧
      (lyricsRouteFetch (.axiosRejected (some st))).status = 502) := by
  constructor
  · intro h
    subst h
    exact ⟨rfl, rfl, rfl, rfl, rfl, rfl⟩
  · intro h404 h200
    have h1 : lyricsRouteFetch (.resolved st pl) =
        ⟨502, none, none, none, none,
          some ("LRCLIB request failed with status " ++ toString st)⟩ := by
      simp only [lyricsRouteFetch]
      rw [if_neg h404, if_pos h200]
    have h2 : lyricsRouteFetch (.axiosRejected (some st)) =
        ⟨502, none, none, none, none,
          some ("Failed to fetch lyrics from LRCLIB (Status: "
            ++ toString st ++ ")")⟩ := by
      simp only [lyricsRouteFetch, Option.getD_some]
      rw [if_neg h404]
    rw [h1, h2]
    exact ⟨rfl, rfl, rfl, rfl⟩

/-- Witness for C8 at provider statuses 404 and 500. -/
theorem lyricsRoute_provider404_witness :
    lyricsRouteFetch (.axiosRejected (some 404)) = noLyricsResponse ∧
    (lyricsRouteFetch (.resolved 500 none)).status = 502 :=
  ⟨((lyricsRoute_provider404 404 none).1 rfl).2.1,
    ((lyricsRoute_provider404 500 none).2 (by decide) (by decide)).2.1⟩

/-! ### Client fetch wrapper (`fetchApi`) and the 401 path -/

/-- The pieces of the page's React state relevant to the 401 scenario. -/
structure ClientState where
  accessToken : Option String
  selectedLineIndices : List Int
  errorMsg : String
  deriving DecidableEq

/-- An HTTP response as seen by `fetchApi`: `res.ok`, `res.status`, and
the `error` field of the parsed body (`none` when parsing failed or the
field is absent). -/
structure HttpResponse where
  ok : Bool
  status : Nat
  errorField : Option String
  deriving DecidableEq

/-- Result of one `fetchApi` call: resolve, or throw an `Error` message. -/
inductive FetchResult where
  | success
  | thrown (msg : String)
  deriving DecidableEq

/-- `fetchApi` issues exactly one request and inspects its one response:
```
if (!res.ok) {
  if (res.status === 401) {
    setAccessToken(null);
    throw new Error("Spotify session expired.");
  }
  const body = await res.json().catch(() => ({}));
  throw new Error(body.error ?? `Error ...`);
}
return res.json();
```
The state updates made during the call are applied to `st`. -/
def fetchApi (st : ClientState) (res : HttpResponse) :
    ClientState × FetchResult :=
  if res.ok then (st, .success)
  else if res.status = 401 then
    ({ st with accessToken := none }, .thrown "Spotify session expired.")
  else
    (st, .thrown (res.errorField.getD ("Error " ++ toString res.status)))

/-- The surrounding call site (`handleSearch` / `handleSelectSong`): a
thrown message is caught and written to the error state; no other state is
touched on the failure path. -/
def dispatchFetch (st : ClientState) (res : HttpResponse) : ClientState :=
  match fetchApi st res with
  | (st1, .thrown msg) => { st1 with errorMsg := msg }
  | (st1, .success) => st1

/-- Counterexample for C9: on a 401 response the token is cleared, but the
selected line indices survive unchanged in the client state — no code path
discards them. -/
theorem fetchApi_401_keeps_selection :
    (dispatchFetch ⟨some "tok", [1, 2], ""⟩ ⟨false, 401, none⟩).accessToken
        = none ∧
    (dispatchFetch ⟨some "tok", [1, 2], ""⟩
        ⟨false, 401, none⟩).selectedLineIndices = [1, 2] ∧
    ¬ (dispatchFetch ⟨some "tok", [1, 2], ""⟩
        ⟨false, 401, none⟩).selectedLineIndices = [] := by
  refine ⟨rfl, rfl, ?_⟩
  decide

/-- C9 (amended): on any 401 response the fetch wrapper clears the bearer
token and throws, so the error propagates only after the token is cleared;
it inspects exactly one response, hence attempts no retry or silent
refresh; and the selected line indices are left unchanged in the client
state (they merely stop being rendered while the token is null). -/
theorem fetchApi_401 (st : ClientState) (res : HttpResponse)
    (hok : res.ok = false) (h401 : res.status = 401) :
    fetchApi st res =
      ({ st with accessToken := none },
        .thrown "Spotify session expired.") ∧
    (fetchApi st res).1.selectedLineIndices = st.selectedLineIndices := by
  have h : fetchApi st res =
      ({ st with accessToken := none },
        .thrown "Spotify session expired.") := by
    unfold fetchApi
    rw [hok, if_neg (by decide), if_pos h401]
  exact ⟨h, by rw [h]⟩

/-- Witness for C9 (amended) at a concrete state and 401 response. -/
theorem fetchApi_401_witness :
    fetchApi ⟨some "tok", [1, 2], ""⟩ ⟨false, 401, none⟩ =
      (⟨none, [1, 2], ""⟩, .thrown "Spotify session expired.") :=
  (fetchApi_401 ⟨some "tok", [1, 2], ""⟩ ⟨false, 401, none⟩ rfl rfl).1

end LyricFinder
